import Mathlib

/-!
Verification of the Slurmer `sacct` query module (`src/slurm/sacct.rs`).

The module has two pure components embedded here:
* `SacctOptions.to_args` — the Query Builder turning options into the
  argument list for the external `sacct` command;
* `parse_sacct_output` — the Output Parser turning `sacct`'s `|`-delimited
  text into `Job` records.

The `Job` record and `JobState` enum live in the crate's parent module
(`super`), which is not part of the given sources; they are modelled from
the specification where marked.  The Rust string primitives the module
uses (`str::trim`, `str::split('|')`, `str::lines`, `str::parse::<u32>`)
are embedded as structural recursion over the character list of a
`String` so that every definition evaluates by kernel reduction;
whitespace is the ASCII whitespace that can occur in `sacct` output.
-/

namespace Slurmer

/-- Modelled from the spec: the job-state enum from the crate's parent
module (not under the given sources).  The spec lists the members
Pending/Running/Completed/Failed/Cancelled and a catch-all `Other` used
for unparsed states. -/
inductive JobState where
  | Pending
  | Running
  | Completed
  | Failed
  | Cancelled
  | Other
deriving DecidableEq, Repr

/-- Modelled from the spec: the canonical string form (Rust `Display`) of
each terminal state, used when the Builder joins the `--state` filter.
The parent module defining it is not under the given sources. -/
def JobState.to_string : JobState → String
  | .Pending => "PENDING"
  | .Running => "RUNNING"
  | .Completed => "COMPLETED"
  | .Failed => "FAILED"
  | .Cancelled => "CANCELLED"
  | .Other => "OTHER"

/-- Modelled from the spec: `JobState`'s `FromStr` (used by
`value.parse()` in the parser).  The parent module defining it is not
under the given sources; per the spec, canonical state strings parse to
the matching member and anything else fails (the parser then falls back
to `Other`). -/
def JobState.from_str (s : String) : Option JobState :=
  if s = "PENDING" then some .Pending
  else if s = "RUNNING" then some .Running
  else if s = "COMPLETED" then some .Completed
  else if s = "FAILED" then some .Failed
  else if s = "CANCELLED" then some .Cancelled
  else none

/-- Modelled from the spec: the `Job` record from the crate's parent
module (not under the given sources).  Field names follow the accesses
made in `sacct.rs`; types follow the spec's data model (strings, uints,
optional strings, optional uint priority). -/
structure Job where
  id : String
  name : String
  user : String
  state : JobState
  time : String
  nodes : Nat
  node : Option String
  cpus : Nat
  memory : String
  partition : String
  qos : String
  account : Option String
  priority : Option Nat
  work_dir : Option String
  submit_time : Option String
  start_time : Option String
  end_time : Option String
  pending_reason : Option String
deriving DecidableEq, Repr

/-- Modelled from the spec: `Job::default()` — the default/zero value has
all fields empty/zero/absent.  The spec does not name the enum's default
member; `Pending` (the first listed) is used, and no theorem below
depends on which member it is. -/
def Job.default : Job :=
  { id := ""
    name := ""
    user := ""
    state := JobState.Pending
    time := ""
    nodes := 0
    node := none
    cpus := 0
    memory := ""
    partition := ""
    qos := ""
    account := none
    priority := none
    work_dir := none
    submit_time := none
    start_time := none
    end_time := none
    pending_reason := none }

/-- Whitespace as trimmed by `str::trim` on the output of `sacct`
(ASCII space, tab, newline, carriage return). -/
def isWsChar (c : Char) : Bool :=
  c = ' ' ∨ c = '\t' ∨ c = '\n' ∨ c = '\r'

/-- Rust's `str::trim`: drop whitespace from both ends. -/
def rustTrim (s : String) : String :=
  String.mk (((s.data.dropWhile isWsChar).reverse.dropWhile isWsChar).reverse)

/-- Helper for `splitChar`: the characters of the current piece are
accumulated in reverse. -/
def splitCharAux (c : Char) : List Char → List Char → List String
  | [], acc => [String.mk acc.reverse]
  | x :: xs, acc =>
    if x = c then String.mk acc.reverse :: splitCharAux c xs []
    else splitCharAux c xs (x :: acc)

/-- Rust's `str::split(c)` for a one-character pattern: the pieces
between occurrences of `c`; never the empty list. -/
def splitChar (c : Char) (s : String) : List String :=
  splitCharAux c s.data []

/-- Drop the single trailing carriage return `str::lines` removes from a
line. -/
def stripTrailingCR (line : String) : String :=
  if line.data.getLast? = some '\r' then String.mk line.data.dropLast else line

/-- Rust's `str::lines`: split on `'\n'`, drop the trailing empty piece
a final newline produces, strip one trailing `'\r'` per line. -/
def rustLines (s : String) : List String :=
  let pieces := splitChar '\n' s
  let pieces := if pieces.getLast? = some "" then pieces.dropLast else pieces
  pieces.map stripTrailingCR

/-- Rust's `str::parse::<u32>`: an optional leading `'+'` sign, then one
or more ASCII digits, rejected on overflow past `2^32 - 1`. -/
def parseU32 (s : String) : Option Nat :=
  let cs :=
    match s.data with
    | '+' :: rest => rest
    | cs => cs
  if cs = [] then none
  else if cs.all Char.isDigit then
    let n := cs.foldl (fun acc c => acc * 10 + (c.toNat - 48)) 0
    if n < 2 ^ 32 then some n else none
  else none

/-- The deduplication loop of `SacctOptions::to_args` (lines 72-78):
a `HashSet` of names seen so far, a field appended only when
`unique.insert(*f)` reports it as new. -/
def builderDedupAux (unique : List String) : List String → List String
  | [] => []
  | f :: rest =>
    if f ∈ unique then builderDedupAux unique rest
    else f :: builderDedupAux (f :: unique) rest

/-- The Builder's deduplicated field list, starting from an empty seen-set. -/
def builderDedup (format_fields : List String) : List String :=
  builderDedupAux [] format_fields

/-- Lines 79-82 of `to_args`: substitute the default vocabulary when the
deduplicated list is empty. -/
def builderEffectiveFields (format_fields : List String) : List String :=
  let fields := builderDedup format_fields
  if fields = [] then
    ["JobIDRaw", "JobName", "User", "State", "Elapsed", "NodeList", "AllocCPUS"]
  else fields

/-- The deduplication loop of `parse_sacct_output` (lines 111-117),
written out separately because the source duplicates the code rather
than sharing it with the Builder. -/
def parserDedupAux (unique : List String) : List String → List String
  | [] => []
  | f :: rest =>
    if f ∈ unique then parserDedupAux unique rest
    else f :: parserDedupAux (f :: unique) rest

/-- The Parser's deduplicated field list. -/
def parserDedup (format_fields : List String) : List String :=
  parserDedupAux [] format_fields

/-- Lines 118-120 of `parse_sacct_output`: the parser's own default
substitution. -/
def parserEffectiveFields (format_fields : List String) : List String :=
  let fields := parserDedup format_fields
  if fields = [] then
    ["JobIDRaw", "JobName", "User", "State", "Elapsed", "NodeList", "AllocCPUS"]
  else fields

/-- `SacctOptions` (lines 9-23). -/
structure SacctOptions where
  user : Option String
  states : List JobState
  partitions : List String
  qos : List String
  recent_hours : Nat
  format_fields : List String

/-- `SacctOptions::to_args` (lines 26-88): fixed output-shape flags, the
clamped time window, the conditional filters, then the `--format` token
built from the deduplicated-and-defaulted field list. -/
def SacctOptions.to_args (o : SacctOptions) : List String :=
  ["-n", "-P", "-X",
   "-S", "now-" ++ toString (max o.recent_hours 1) ++ "hours",
   "-E", "now"]
  ++ (match o.user with
      | some u => if u = "" then [] else ["--user", u]
      | none => [])
  ++ (if o.partitions = [] then []
      else ["--partition", String.intercalate "," o.partitions])
  ++ (if o.qos = [] then []
      else ["--qos", String.intercalate "," o.qos])
  ++ (if o.states = [] then []
      else ["--state", String.intercalate "," (o.states.map JobState.to_string)])
  ++ ["--format", String.intercalate "," (builderEffectiveFields o.format_fields)]

/-- Line 141's skip condition: empty after trimming, or one of the two
sentinel strings. -/
def isSentinel (value : String) : Bool :=
  value == "" || value == "Unknown" || value == "N/A"

/-- The `match fields[idx]` dispatch (lines 145-165): assign the trimmed
value to the Job attribute named by the column's field, with numeric
fallbacks on coercion failure; unrecognized names assign nothing. -/
def applyField (job : Job) (field value : String) : Job :=
  match field with
  | "JobIDRaw" | "JobID" => { job with id := value }
  | "JobName" => { job with name := value }
  | "User" => { job with user := value }
  | "State" => { job with state := (JobState.from_str value).getD JobState.Other }
  | "Elapsed" => { job with time := value }
  | "NNodes" => { job with nodes := (parseU32 value).getD 0 }
  | "NodeList" => { job with node := some value }
  | "AllocCPUS" | "NCPUS" => { job with cpus := (parseU32 value).getD 0 }
  | "ReqMem" => { job with memory := value }
  | "Partition" => { job with partition := value }
  | "QOS" => { job with qos := value }
  | "Account" => { job with account := some value }
  | "Priority" => { job with priority := parseU32 value }
  | "WorkDir" => { job with work_dir := some value }
  | "Submit" => { job with submit_time := some value }
  | "Start" => { job with start_time := some value }
  | "End" => { job with end_time := some value }
  | "Reason" => { job with pending_reason := some value }
  | _ => job

/-- The column loop (lines 136-166): walk fields and columns in step,
stop at the shorter of the two (`idx >= fields.len()` breaks; the loop
itself ends with the columns), skip sentinel columns, otherwise dispatch
on the field name. -/
def applyColumns : List String → List String → Job → Job
  | _, [], job => job
  | [], _ :: _, job => job
  | f :: fs, p :: ps, job =>
    if isSentinel (rustTrim p) then applyColumns fs ps job
    else applyColumns fs ps (applyField job f (rustTrim p))

/-- One iteration of the line loop (lines 123-173): trim, skip empty
lines, split on `'|'`, build the Job from the columns, and discard the
record when its id never got populated. -/
def parseLine (fields : List String) (raw_line : String) : Option Job :=
  let line := rustTrim raw_line
  if line = "" then none
  else
    let parts := splitChar '|' line
    if parts = [] then none
    else
      let job := applyColumns fields parts Job.default
      if job.id = "" then none else some job

/-- `parse_sacct_output` (lines 105-176).  Always `Ok`: the early return
for whitespace-only output, then one optional Job per line. -/
def parse_sacct_output (stdout : String) (format_fields : List String) :
    Except String (List Job) :=
  if rustTrim stdout = "" then Except.ok []
  else
    let fields := parserEffectiveFields format_fields
    Except.ok ((rustLines stdout).filterMap (parseLine fields))

/-- The field names recognized by the `match` dispatch (lines 146-163). -/
def recognizedFields : List String :=
  ["JobIDRaw", "JobID", "JobName", "User", "State", "Elapsed", "NNodes",
   "NodeList", "AllocCPUS", "NCPUS", "ReqMem", "Partition", "QOS",
   "Account", "Priority", "WorkDir", "Submit", "Start", "End", "Reason"]

/-- Whether some column processed by the loop (index below both list
lengths) names a field in `setters` and carries a non-sentinel value —
i.e. whether the loop can assign through one of those field names. -/
def touches (setters : List String) : List String → List String → Bool
  | _, [] => false
  | [], _ :: _ => false
  | f :: fs, p :: ps =>
    (decide (f ∈ setters) && !isSentinel (rustTrim p)) || touches setters fs ps

/-- Specification predicate: each Job attribute is still at its default
unless some processed column both names one of that attribute's field
names and carries a non-empty, non-sentinel value. -/
def OnlyTouchedPopulated (fields parts : List String) (job : Job) : Prop :=
  (touches ["JobIDRaw", "JobID"] fields parts = false → job.id = Job.default.id) ∧
  (touches ["JobName"] fields parts = false → job.name = Job.default.name) ∧
  (touches ["User"] fields parts = false → job.user = Job.default.user) ∧
  (touches ["State"] fields parts = false → job.state = Job.default.state) ∧
  (touches ["Elapsed"] fields parts = false → job.time = Job.default.time) ∧
  (touches ["NNodes"] fields parts = false → job.nodes = Job.default.nodes) ∧
  (touches ["NodeList"] fields parts = false → job.node = Job.default.node) ∧
  (touches ["AllocCPUS", "NCPUS"] fields parts = false → job.cpus = Job.default.cpus) ∧
  (touches ["ReqMem"] fields parts = false → job.memory = Job.default.memory) ∧
  (touches ["Partition"] fields parts = false → job.partition = Job.default.partition) ∧
  (touches ["QOS"] fields parts = false → job.qos = Job.default.qos) ∧
  (touches ["Account"] fields parts = false → job.account = Job.default.account) ∧
  (touches ["Priority"] fields parts = false → job.priority = Job.default.priority) ∧
  (touches ["WorkDir"] fields parts = false → job.work_dir = Job.default.work_dir) ∧
  (touches ["Submit"] fields parts = false → job.submit_time = Job.default.submit_time) ∧
  (touches ["Start"] fields parts = false → job.start_time = Job.default.start_time) ∧
  (touches ["End"] fields parts = false → job.end_time = Job.default.end_time) ∧
  (touches ["Reason"] fields parts = false → job.pending_reason = Job.default.pending_reason)

theorem dedupAux_eq (l : List String) :
    ∀ unique : List String, builderDedupAux unique l = parserDedupAux unique l := by
  induction l with
  | nil => intro unique; rfl
  | cons f rest ih =>
    intro unique
    unfold builderDedupAux parserDedupAux
    by_cases h : f ∈ unique
    · simp [h, ih]
    · simp [h, ih]

theorem effectiveFields_eq (fs : List String) :
    builderEffectiveFields fs = parserEffectiveFields fs := by
  unfold builderEffectiveFields parserEffectiveFields builderDedup parserDedup
  rw [dedupAux_eq]

theorem getLast?_append_some {l₂ : List String} (l₁ : List String) {x : String}
    (h : l₂.getLast? = some x) : (l₁ ++ l₂).getLast? = some x := by
  have h2 : l₂ ≠ [] := by rintro rfl; simp at h
  rw [List.getLast?_append_of_ne_nil l₁ h2, h]

theorem to_args_last (o : SacctOptions) :
    o.to_args.getLast? =
      some (String.intercalate "," (builderEffectiveFields o.format_fields)) := by
  unfold SacctOptions.to_args
  refine getLast?_append_some _ ?_
  simp

/-- C1: for every format-field list, the deduplicated-and-defaulted field
list the Builder emits as the `--format` token equals the field list the
Parser computes independently from the same original list; the two agree
on column order for every input. -/
theorem builder_parser_field_lists_agree (o : SacctOptions) :
    builderEffectiveFields o.format_fields = parserEffectiveFields o.format_fields ∧
    o.to_args.getLast? =
      some (String.intercalate "," (parserEffectiveFields o.format_fields)) := by
  refine ⟨effectiveFields_eq _, ?_⟩
  rw [to_args_last, effectiveFields_eq]

/-- C9: for every input text and every format-field list the parser
returns a successful result carrying a (possibly empty) Job list; it has
no error path. -/
theorem parse_sacct_output_never_errors (stdout : String) (format_fields : List String) :
    ∃ jobs : List Job, parse_sacct_output stdout format_fields = Except.ok jobs := by
  unfold parse_sacct_output
  split
  · exact ⟨[], rfl⟩
  · exact ⟨_, rfl⟩

/-- C4: the Builder always emits the start-time token at position 4 as
now minus `max(recentHours, 1)` hours; with `recentHours = 0` the token
is `"now-1hours"`, and the clamped lookback is never zero. -/
theorem start_time_clamped (o : SacctOptions) :
    (∃ rest, o.to_args =
      ["-n", "-P", "-X", "-S",
       "now-" ++ toString (max o.recent_hours 1) ++ "hours", "-E", "now"] ++ rest) ∧
    (o.recent_hours = 0 →
      "now-" ++ toString (max o.recent_hours 1) ++ "hours" = "now-1hours") ∧
    1 ≤ max o.recent_hours 1 := by
  refine ⟨⟨(match o.user with
            | some u => if u = "" then [] else ["--user", u]
            | none => []) ++
           ((if o.partitions = [] then []
             else ["--partition", String.intercalate "," o.partitions]) ++
           ((if o.qos = [] then []
             else ["--qos", String.intercalate "," o.qos]) ++
           ((if o.states = [] then []
             else ["--state", String.intercalate "," (o.states.map JobState.to_string)]) ++
            ["--format", String.intercalate "," (builderEffectiveFields o.format_fields)]))),
          ?_⟩, ?_, le_max_right _ _⟩
  · unfold SacctOptions.to_args
    simp only [List.append_assoc]
  · intro h
    rw [h]
    rfl

theorem start_time_clamped_witness :
    (∃ rest, (SacctOptions.mk none [] [] [] 0 []).to_args =
      ["-n", "-P", "-X", "-S",
       "now-" ++ toString (max (SacctOptions.mk none [] [] [] 0 []).recent_hours 1) ++ "hours",
       "-E", "now"] ++ rest) ∧
    ((SacctOptions.mk none [] [] [] 0 []).recent_hours = 0 →
      "now-" ++ toString (max (SacctOptions.mk none [] [] [] 0 []).recent_hours 1) ++ "hours"
        = "now-1hours") ∧
    1 ≤ max (SacctOptions.mk none [] [] [] 0 []).recent_hours 1 :=
  start_time_clamped (SacctOptions.mk none [] [] [] 0 [])

/-- C6: with an empty `formatFields`, Builder and Parser independently
substitute the same fixed 7-field default vocabulary in the same order,
and the emitted `--format` value is the comma-joined default list. -/
theorem empty_fields_default_vocabulary (o : SacctOptions) (h : o.format_fields = []) :
    o.to_args.getLast? =
      some "JobIDRaw,JobName,User,State,Elapsed,NodeList,AllocCPUS" ∧
    builderEffectiveFields o.format_fields =
      ["JobIDRaw", "JobName", "User", "State", "Elapsed", "NodeList", "AllocCPUS"] ∧
    parserEffectiveFields o.format_fields =
      ["JobIDRaw", "JobName", "User", "State", "Elapsed", "NodeList", "AllocCPUS"] := by
  rw [to_args_last, h]
  exact ⟨rfl, rfl, rfl⟩

theorem empty_fields_default_vocabulary_witness :
    (SacctOptions.mk none [] [] [] 1 []).to_args.getLast? =
      some "JobIDRaw,JobName,User,State,Elapsed,NodeList,AllocCPUS" ∧
    builderEffectiveFields (SacctOptions.mk none [] [] [] 1 []).format_fields =
      ["JobIDRaw", "JobName", "User", "State", "Elapsed", "NodeList", "AllocCPUS"] ∧
    parserEffectiveFields (SacctOptions.mk none [] [] [] 1 []).format_fields =
      ["JobIDRaw", "JobName", "User", "State", "Elapsed", "NodeList", "AllocCPUS"] :=
  empty_fields_default_vocabulary (SacctOptions.mk none [] [] [] 1 []) rfl

/-- C2: parsing the sample 18-column line with the 18-field vocabulary
in glossary order yields exactly one Job with the listed attributes; the
trailing literal `"None"` is not a recognized sentinel and is stored
literally as the pending reason. -/
theorem parse_sample_line :
    parse_sacct_output
      "123|myjob|alice|COMPLETED|00:10:00|2|node[1-2]|16|2048Mc|part|normal|proj|1000|/tmp|2026-01-01T00:00:00|2026-01-01T00:00:01|2026-01-01T00:10:01|None"
      ["JobIDRaw", "JobName", "User", "State", "Elapsed", "NNodes", "NodeList",
       "AllocCPUS", "ReqMem", "Partition", "QOS", "Account", "Priority", "WorkDir",
       "Submit", "Start", "End", "Reason"] =
    Except.ok [{ id := "123", name := "myjob", user := "alice",
                 state := JobState.Completed, time := "00:10:00", nodes := 2,
                 node := some "node[1-2]", cpus := 16, memory := "2048Mc",
                 partition := "part", qos := "normal", account := some "proj",
                 priority := some 1000, work_dir := some "/tmp",
                 submit_time := some "2026-01-01T00:00:00",
                 start_time := some "2026-01-01T00:00:01",
                 end_time := some "2026-01-01T00:10:01",
                 pending_reason := some "None" }] := by
  rfl

theorem builderDedupAux_cons (unique : List String) (f : String) (rest : List String) :
    builderDedupAux unique (f :: rest) =
      if f ∈ unique then builderDedupAux unique rest
      else f :: builderDedupAux (f :: unique) rest := rfl

theorem dedupAux_congr (l : List String) :
    ∀ s₁ s₂ : List String, (∀ x, x ∈ s₁ ↔ x ∈ s₂) →
      builderDedupAux s₁ l = builderDedupAux s₂ l := by
  induction l with
  | nil => intro s₁ s₂ _; rfl
  | cons g rest ih =>
    intro s₁ s₂ hs
    unfold builderDedupAux
    by_cases hg : g ∈ s₁
    · rw [if_pos hg, if_pos ((hs g).mp hg)]
      exact ih s₁ s₂ hs
    · rw [if_neg hg, if_neg (fun h => hg ((hs g).mpr h))]
      rw [ih (g :: s₁) (g :: s₂) (by intro x; simp [hs x])]

theorem dedupAux_seen_filter (l : List String) :
    ∀ (unique : List String) (f : String),
      builderDedupAux (f :: unique) l =
        builderDedupAux unique (l.filter (fun g => decide (g ≠ f))) := by
  induction l with
  | nil => intro unique f; rfl
  | cons g rest ih =>
    intro unique f
    by_cases hgf : g = f
    · subst hgf
      have hstep : builderDedupAux (g :: unique) (g :: rest) =
          builderDedupAux (g :: unique) rest := by
        rw [builderDedupAux_cons, if_pos (List.mem_cons_self g unique)]
      have hfil : (g :: rest).filter (fun x => decide (x ≠ g)) =
          rest.filter (fun x => decide (x ≠ g)) := by simp
      rw [hstep, hfil, ← ih unique g]
    · have hfil : (g :: rest).filter (fun x => decide (x ≠ f)) =
          g :: rest.filter (fun x => decide (x ≠ f)) := by simp [hgf]
      by_cases hgu : g ∈ unique
      · have hstep : builderDedupAux (f :: unique) (g :: rest) =
            builderDedupAux (f :: unique) rest := by
          rw [builderDedupAux_cons, if_pos (List.mem_cons_of_mem f hgu)]
        rw [hstep, ih unique f, hfil, builderDedupAux_cons, if_pos hgu]
      · have hgfu : g ∉ f :: unique := by simp [hgf, hgu]
        have hstep : builderDedupAux (f :: unique) (g :: rest) =
            g :: builderDedupAux (g :: f :: unique) rest := by
          rw [builderDedupAux_cons, if_neg hgfu]
        rw [hstep, hfil, builderDedupAux_cons, if_neg hgu]
        congr 1
        rw [dedupAux_congr rest (g :: f :: unique) (f :: g :: unique)
          (by intro x; constructor <;> (intro hx; simp at hx ⊢; tauto))]
        exact ih (g :: unique) f

theorem builderDedup_cons (f : String) (fs : List String) :
    builderDedup (f :: fs) = f :: builderDedup (fs.filter (fun g => decide (g ≠ f))) := by
  unfold builderDedup
  have hstep : builderDedupAux [] (f :: fs) = f :: builderDedupAux [f] fs := by
    rw [builderDedupAux_cons, if_neg (List.not_mem_nil f)]
  rw [hstep, dedupAux_seen_filter fs [] f]

theorem parserDedup_cons (f : String) (fs : List String) :
    parserDedup (f :: fs) = f :: parserDedup (fs.filter (fun g => decide (g ≠ f))) := by
  unfold parserDedup
  rw [← dedupAux_eq, ← dedupAux_eq]
  exact builderDedup_cons f fs

/-- C5: both dedup passes keep exactly the first occurrence of each
field name in first-occurrence order: the head of the list survives and
every later occurrence of it is dropped, recursively; on
`["State","JobID","State"]` both dedups, both effective lists, and the
emitted `--format` token reduce to `State,JobID`. -/
theorem dedup_keeps_first_occurrence (f : String) (fs : List String) :
    builderDedup (f :: fs) = f :: builderDedup (fs.filter (fun g => decide (g ≠ f))) ∧
    parserDedup (f :: fs) = f :: parserDedup (fs.filter (fun g => decide (g ≠ f))) ∧
    builderDedup ["State", "JobID", "State"] = ["State", "JobID"] ∧
    parserDedup ["State", "JobID", "State"] = ["State", "JobID"] ∧
    builderEffectiveFields ["State", "JobID", "State"] = ["State", "JobID"] ∧
    parserEffectiveFields ["State", "JobID", "State"] = ["State", "JobID"] ∧
    (SacctOptions.mk none [] [] [] 1 ["State", "JobID", "State"]).to_args.getLast?
      = some "State,JobID" :=
  ⟨builderDedup_cons f fs, parserDedup_cons f fs, rfl, rfl, rfl, rfl, rfl⟩

/-- C7: a line whose processed columns never populate the id attribute
produces no Job record, and input consisting only of blank lines yields
an empty Job sequence, not an error; in particular a line whose id
column is empty while every other column is present is discarded. -/
theorem empty_id_discards_record (format_fields : List String) (line : String)
    (h : (applyColumns (parserEffectiveFields format_fields)
            (splitChar '|' (rustTrim line)) Job.default).id = "") :
    parseLine (parserEffectiveFields format_fields) line = none ∧
    parse_sacct_output "\n\n" format_fields = Except.ok [] ∧
    parse_sacct_output "|myjob|alice|COMPLETED"
      ["JobIDRaw", "JobName", "User", "State"] = Except.ok [] := by
  refine ⟨?_, rfl, rfl⟩
  dsimp only [parseLine]
  split_ifs with h1 h2 <;> rfl

theorem empty_id_discards_record_witness :
    parseLine (parserEffectiveFields ["JobIDRaw"]) "|x" = none ∧
    parse_sacct_output "\n\n" ["JobIDRaw"] = Except.ok [] ∧
    parse_sacct_output "|myjob|alice|COMPLETED"
      ["JobIDRaw", "JobName", "User", "State"] = Except.ok [] :=
  empty_id_discards_record ["JobIDRaw"] "|x" rfl

/-- C8: a value that fails numeric coercion is non-fatal: the node and
CPU counters fall back to zero, the state falls back to the catch-all
`Other` member, the optional priority stays absent, and (concretely) a
line full of such values still yields its record. -/
theorem coercion_failure_fallbacks (job : Job) (value : String)
    (hv : parseU32 value = none) (hs : JobState.from_str value = none) :
    (applyField job "NNodes" value).nodes = 0 ∧
    (applyField job "AllocCPUS" value).cpus = 0 ∧
    (applyField job "NCPUS" value).cpus = 0 ∧
    (applyField job "State" value).state = JobState.Other ∧
    (applyField job "Priority" value).priority = none ∧
    parse_sacct_output "x|abc|RUNNIN|abc" ["JobIDRaw", "NNodes", "State", "Priority"] =
      Except.ok [{ id := "x", name := "", user := "", state := JobState.Other,
                   time := "", nodes := 0, node := none, cpus := 0, memory := "",
                   partition := "", qos := "", account := none, priority := none,
                   work_dir := none, submit_time := none, start_time := none,
                   end_time := none, pending_reason := none }] := by
  refine ⟨?_, ?_, ?_, ?_, ?_, rfl⟩ <;> simp [applyField, hv, hs]

theorem coercion_failure_fallbacks_witness :
    (applyField Job.default "NNodes" "abc").nodes = 0 ∧
    (applyField Job.default "AllocCPUS" "abc").cpus = 0 ∧
    (applyField Job.default "NCPUS" "abc").cpus = 0 ∧
    (applyField Job.default "State" "abc").state = JobState.Other ∧
    (applyField Job.default "Priority" "abc").priority = none ∧
    parse_sacct_output "x|abc|RUNNIN|abc" ["JobIDRaw", "NNodes", "State", "Priority"] =
      Except.ok [{ id := "x", name := "", user := "", state := JobState.Other,
                   time := "", nodes := 0, node := none, cpus := 0, memory := "",
                   partition := "", qos := "", account := none, priority := none,
                   work_dir := none, submit_time := none, start_time := none,
                   end_time := none, pending_reason := none }] :=
  coercion_failure_fallbacks Job.default "abc" rfl rfl

/-- C10: deduplication compares field names only: the pairs
`JobIDRaw`/`JobID` and `AllocCPUS`/`NCPUS`, which target the same Job
attribute, both survive dedup as separate columns, and when both columns
carry non-sentinel values the attribute keeps the later (rightmost)
column's value. -/
theorem same_attribute_last_column_wins (v1 v2 : String)
    (h1 : isSentinel (rustTrim v1) = false) (h2 : isSentinel (rustTrim v2) = false) :
    builderDedup ["JobIDRaw", "JobID"] = ["JobIDRaw", "JobID"] ∧
    parserDedup ["JobIDRaw", "JobID"] = ["JobIDRaw", "JobID"] ∧
    builderDedup ["AllocCPUS", "NCPUS"] = ["AllocCPUS", "NCPUS"] ∧
    parserDedup ["AllocCPUS", "NCPUS"] = ["AllocCPUS", "NCPUS"] ∧
    (applyColumns ["JobIDRaw", "JobID"] [v1, v2] Job.default).id = rustTrim v2 ∧
    (applyColumns ["AllocCPUS", "NCPUS"] [v1, v2] Job.default).cpus
      = (parseU32 (rustTrim v2)).getD 0 ∧
    parse_sacct_output "8|9" ["JobIDRaw", "JobID"] =
      Except.ok [{ id := "9", name := "", user := "", state := JobState.Pending,
                   time := "", nodes := 0, node := none, cpus := 0, memory := "",
                   partition := "", qos := "", account := none, priority := none,
                   work_dir := none, submit_time := none, start_time := none,
                   end_time := none, pending_reason := none }] := by
  refine ⟨rfl, rfl, rfl, rfl, ?_, ?_, rfl⟩ <;> simp [applyColumns, applyField, h1, h2]

theorem same_attribute_last_column_wins_witness :
    builderDedup ["JobIDRaw", "JobID"] = ["JobIDRaw", "JobID"] ∧
    parserDedup ["JobIDRaw", "JobID"] = ["JobIDRaw", "JobID"] ∧
    builderDedup ["AllocCPUS", "NCPUS"] = ["AllocCPUS", "NCPUS"] ∧
    parserDedup ["AllocCPUS", "NCPUS"] = ["AllocCPUS", "NCPUS"] ∧
    (applyColumns ["JobIDRaw", "JobID"] ["1", "2"] Job.default).id = rustTrim "2" ∧
    (applyColumns ["AllocCPUS", "NCPUS"] ["1", "2"] Job.default).cpus
      = (parseU32 (rustTrim "2")).getD 0 ∧
    parse_sacct_output "8|9" ["JobIDRaw", "JobID"] =
      Except.ok [{ id := "9", name := "", user := "", state := JobState.Pending,
                   time := "", nodes := 0, node := none, cpus := 0, memory := "",
                   partition := "", qos := "", account := none, priority := none,
                   work_dir := none, submit_time := none, start_time := none,
                   end_time := none, pending_reason := none }] :=
  same_attribute_last_column_wins "1" "2" rfl rfl

theorem applyColumns_cons_cons (f : String) (fs : List String) (p : String)
    (ps : List String) (job : Job) :
    applyColumns (f :: fs) (p :: ps) job =
      if isSentinel (rustTrim p) then applyColumns fs ps job
      else applyColumns fs ps (applyField job f (rustTrim p)) := rfl

theorem applyColumns_untouched {α : Type} (g : Job → α) (setters : List String)
    (hg : ∀ (job : Job) (f v : String), f ∉ setters → g (applyField job f v) = g job) :
    ∀ (fields parts : List String) (job : Job),
      touches setters fields parts = false →
      g (applyColumns fields parts job) = g job := by
  intro fields parts
  induction parts generalizing fields with
  | nil =>
    intro job _
    cases fields <;> rfl
  | cons p ps ih =>
    intro job ht
    cases fields with
    | nil => rfl
    | cons f fs =>
      simp only [touches, Bool.or_eq_false_iff, Bool.and_eq_false_iff,
        decide_eq_false_iff_not, Bool.not_eq_false'] at ht
      obtain ⟨hfs, hrest⟩ := ht
      by_cases hsent : isSentinel (rustTrim p) = true
      · rw [applyColumns_cons_cons, if_pos hsent]
        exact ih fs job hrest
      · have hf : f ∉ setters := hfs.resolve_right hsent
        rw [applyColumns_cons_cons, if_neg hsent,
          ih fs (applyField job f (rustTrim p)) hrest, hg job f (rustTrim p) hf]

theorem applyField_ne_id (job : Job) (f v : String)
    (hf : f ∉ (["JobIDRaw", "JobID"] : List String)) :
    (applyField job f v).id = job.id := by
  unfold applyField
  split <;> first | rfl | simp_all

theorem applyField_ne_name (job : Job) (f v : String)
    (hf : f ∉ (["JobName"] : List String)) :
    (applyField job f v).name = job.name := by
  unfold applyField
  split <;> first | rfl | simp_all

theorem applyField_ne_user (job : Job) (f v : String)
    (hf : f ∉ (["User"] : List String)) :
    (applyField job f v).user = job.user := by
  unfold applyField
  split <;> first | rfl | simp_all

theorem applyField_ne_state (job : Job) (f v : String)
    (hf : f ∉ (["State"] : List String)) :
    (applyField job f v).state = job.state := by
  unfold applyField
  split <;> first | rfl | simp_all

theorem applyField_ne_time (job : Job) (f v : String)
    (hf : f ∉ (["Elapsed"] : List String)) :
    (applyField job f v).time = job.time := by
  unfold applyField
  split <;> first | rfl | simp_all

theorem applyField_ne_nodes (job : Job) (f v : String)
    (hf : f ∉ (["NNodes"] : List String)) :
    (applyField job f v).nodes = job.nodes := by
  unfold applyField
  split <;> first | rfl | simp_all

theorem applyField_ne_node (job : Job) (f v : String)
    (hf : f ∉ (["NodeList"] : List String)) :
    (applyField job f v).node = job.node := by
  unfold applyField
  split <;> first | rfl | simp_all

theorem applyField_ne_cpus (job : Job) (f v : String)
    (hf : f ∉ (["AllocCPUS", "NCPUS"] : List String)) :
    (applyField job f v).cpus = job.cpus := by
  unfold applyField
  split <;> first | rfl | simp_all

theorem applyField_ne_memory (job : Job) (f v : String)
    (hf : f ∉ (["ReqMem"] : List String)) :
    (applyField job f v).memory = job.memory := by
  unfold applyField
  split <;> first | rfl | simp_all

theorem applyField_ne_partition (job : Job) (f v : String)
    (hf : f ∉ (["Partition"] : List String)) :
    (applyField job f v).partition = job.partition := by
  unfold applyField
  split <;> first | rfl | simp_all

theorem applyField_ne_qos (job : Job) (f v : String)
    (hf : f ∉ (["QOS"] : List String)) :
    (applyField job f v).qos = job.qos := by
  unfold applyField
  split <;> first | rfl | simp_all

theorem applyField_ne_account (job : Job) (f v : String)
    (hf : f ∉ (["Account"] : List String)) :
    (applyField job f v).account = job.account := by
  unfold applyField
  split <;> first | rfl | simp_all

theorem applyField_ne_priority (job : Job) (f v : String)
    (hf : f ∉ (["Priority"] : List String)) :
    (applyField job f v).priority = job.priority := by
  unfold applyField
  split <;> first | rfl | simp_all

theorem applyField_ne_work_dir (job : Job) (f v : String)
    (hf : f ∉ (["WorkDir"] : List String)) :
    (applyField job f v).work_dir = job.work_dir := by
  unfold applyField
  split <;> first | rfl | simp_all

theorem applyField_ne_submit_time (job : Job) (f v : String)
    (hf : f ∉ (["Submit"] : List String)) :
    (applyField job f v).submit_time = job.submit_time := by
  unfold applyField
  split <;> first | rfl | simp_all

theorem applyField_ne_start_time (job : Job) (f v : String)
    (hf : f ∉ (["Start"] : List String)) :
    (applyField job f v).start_time = job.start_time := by
  unfold applyField
  split <;> first | rfl | simp_all

theorem applyField_ne_end_time (job : Job) (f v : String)
    (hf : f ∉ (["End"] : List String)) :
    (applyField job f v).end_time = job.end_time := by
  unfold applyField
  split <;> first | rfl | simp_all

theorem applyField_ne_pending_reason (job : Job) (f v : String)
    (hf : f ∉ (["Reason"] : List String)) :
    (applyField job f v).pending_reason = job.pending_reason := by
  unfold applyField
  split <;> first | rfl | simp_all

theorem applyField_unrecognized (j : Job) (f v : String)
    (hf : f ∉ recognizedFields) : applyField j f v = j := by
  unfold applyField
  split <;> first | rfl | simp_all [recognizedFields]

theorem applyColumns_only_touched (fields parts : List String) :
    OnlyTouchedPopulated fields parts (applyColumns fields parts Job.default) := by
  refine ⟨fun ht => ?_, fun ht => ?_, fun ht => ?_, fun ht => ?_, fun ht => ?_,
    fun ht => ?_, fun ht => ?_, fun ht => ?_, fun ht => ?_, fun ht => ?_,
    fun ht => ?_, fun ht => ?_, fun ht => ?_, fun ht => ?_, fun ht => ?_,
    fun ht => ?_, fun ht => ?_, fun ht => ?_⟩
  · exact applyColumns_untouched (fun j => j.id) _ applyField_ne_id _ _ _ ht
  · exact applyColumns_untouched (fun j => j.name) _ applyField_ne_name _ _ _ ht
  · exact applyColumns_untouched (fun j => j.user) _ applyField_ne_user _ _ _ ht
  · exact applyColumns_untouched (fun j => j.state) _ applyField_ne_state _ _ _ ht
  · exact applyColumns_untouched (fun j => j.time) _ applyField_ne_time _ _ _ ht
  · exact applyColumns_untouched (fun j => j.nodes) _ applyField_ne_nodes _ _ _ ht
  · exact applyColumns_untouched (fun j => j.node) _ applyField_ne_node _ _ _ ht
  · exact applyColumns_untouched (fun j => j.cpus) _ applyField_ne_cpus _ _ _ ht
  · exact applyColumns_untouched (fun j => j.memory) _ applyField_ne_memory _ _ _ ht
  · exact applyColumns_untouched (fun j => j.partition) _ applyField_ne_partition _ _ _ ht
  · exact applyColumns_untouched (fun j => j.qos) _ applyField_ne_qos _ _ _ ht
  · exact applyColumns_untouched (fun j => j.account) _ applyField_ne_account _ _ _ ht
  · exact applyColumns_untouched (fun j => j.priority) _ applyField_ne_priority _ _ _ ht
  · exact applyColumns_untouched (fun j => j.work_dir) _ applyField_ne_work_dir _ _ _ ht
  · exact applyColumns_untouched (fun j => j.submit_time) _ applyField_ne_submit_time _ _ _ ht
  · exact applyColumns_untouched (fun j => j.start_time) _ applyField_ne_start_time _ _ _ ht
  · exact applyColumns_untouched (fun j => j.end_time) _ applyField_ne_end_time _ _ _ ht
  · exact applyColumns_untouched (fun j => j.pending_reason) _ applyField_ne_pending_reason _ _ _ ht

theorem parseLine_some (fields : List String) (line : String) (job : Job)
    (h : parseLine fields line = some job) :
    job = applyColumns fields (splitChar '|' (rustTrim line)) Job.default := by
  dsimp only [parseLine] at h
  split_ifs at h
  exact (Option.some.inj h).symm

/-- C3: every Job the parser produces arises from applying the columns
of one output line over the deduplicated field list, and each of its
attributes is still at its default unless some processed column both
names one of that attribute's field names and carries a non-empty,
non-sentinel value; field names outside the recognized vocabulary never
populate any attribute. -/
theorem populated_only_when_touched (stdout : String) (format_fields : List String)
    (jobs : List Job) (job : Job)
    (hok : parse_sacct_output stdout format_fields = Except.ok jobs)
    (hmem : job ∈ jobs) :
    (∃ line ∈ rustLines stdout,
        job = applyColumns (parserEffectiveFields format_fields)
                (splitChar '|' (rustTrim line)) Job.default ∧
        OnlyTouchedPopulated (parserEffectiveFields format_fields)
          (splitChar '|' (rustTrim line)) job) ∧
    (∀ (j : Job) (f v : String), f ∉ recognizedFields → applyField j f v = j) := by
  refine ⟨?_, fun j f v hf => applyField_unrecognized j f v hf⟩
  dsimp only [parse_sacct_output] at hok
  split_ifs at hok with he
  · injection hok with hok
    subst hok
    exact absurd hmem (List.not_mem_nil job)
  · injection hok with hok
    subst hok
    obtain ⟨line, hline, hsome⟩ := List.mem_filterMap.mp hmem
    refine ⟨line, hline, parseLine_some _ _ _ hsome, ?_⟩
    rw [parseLine_some _ _ _ hsome]
    exact applyColumns_only_touched _ _

theorem populated_only_when_touched_witness :
    (∃ line ∈ rustLines "7|j",
        ({ Job.default with id := "7", name := "j" } : Job)
          = applyColumns (parserEffectiveFields ["JobIDRaw", "JobName"])
              (splitChar '|' (rustTrim line)) Job.default ∧
        OnlyTouchedPopulated (parserEffectiveFields ["JobIDRaw", "JobName"])
          (splitChar '|' (rustTrim line))
          { Job.default with id := "7", name := "j" }) ∧
    (∀ (j : Job) (f v : String), f ∉ recognizedFields → applyField j f v = j) :=
  populated_only_when_touched "7|j" ["JobIDRaw", "JobName"]
    [{ Job.default with id := "7", name := "j" }]
    { Job.default with id := "7", name := "j" } (by rfl) (by simp)

end Slurmer
